import Mathlib

/-!
# Verification of the Trakt export-to-import converter

A shallow embedding of `trakt_converter.py` and proofs of the spec's
claims about it.  JSON values are modelled by `JVal`, Python dicts by
association lists, Python truthiness by `truthy`, and Python runtime
errors (attribute errors raised by calling `.get` on a non-dict) by
`Except Unit`.
-/

set_option autoImplicit false

namespace Trakt

/-- JSON values as manipulated by the converter. -/
inductive JVal where
  | null
  | bool (b : Bool)
  | num (n : Int)
  | str (s : String)
  | arr (elems : List JVal)
  | obj (fields : List (String × JVal))

/-- A Python dict with string keys, as produced by parsing a JSON object. -/
abbrev Dict := List (String × JVal)

/-- Lookup of a key in a dict; `none` when the key is absent. -/
def Dict.get? (d : Dict) (k : String) : Option JVal :=
  match d with
  | [] => none
  | (k', v) :: rest => if k' = k then some v else Dict.get? rest k

/-- Python `k in d`: key membership. -/
def Dict.hasKey (d : Dict) (k : String) : Bool :=
  (Dict.get? d k).isSome

/-- Python `d.get(k)`: the value when present, `None` (JSON null) otherwise. -/
def Dict.getd (d : Dict) (k : String) : JVal :=
  (Dict.get? d k).getD .null

/-- Python truthiness of a JSON value: `None`, `False`, `0`, `""`, `[]`
and `{}` are falsy, everything else is truthy. -/
def truthy : JVal → Bool
  | .null => false
  | .bool b => b
  | .num n => n != 0
  | .str s => s != ""
  | .arr elems => !elems.isEmpty
  | .obj fields => !fields.isEmpty

/-- Function `extract_id` (lines 23-36): pick the best ID available in order of
preference imdb > tmdb > tvdb > trakt.  `none` models Python's
`(None, None)` result. -/
def extract_id (ids : Dict) : Option (String × JVal) :=
  if truthy (Dict.getd ids "imdb") then some ("imdb_id", Dict.getd ids "imdb")
  else if truthy (Dict.getd ids "tmdb") then some ("tmdb_id", Dict.getd ids "tmdb")
  else if truthy (Dict.getd ids "tvdb") then some ("tvdb_id", Dict.getd ids "tvdb")
  else if truthy (Dict.getd ids "trakt") then some ("trakt_id", Dict.getd ids "trakt")
  else none

/-- The condition of the history chain, e.g.
`item.get("episode") and item["episode"].get("ids")` (lines 55-62):
when the sub-record under `k` is truthy and its `ids` are truthy, the
`ids` dict is returned for `extract_id`; a truthy non-dict sub-record, or
truthy non-dict `ids`, raises in Python (`.get` on a non-dict inside the
condition, `ids.get` inside `extract_id`), modelled as `.error ()`. -/
def subIds (item : Dict) (k : String) : Except Unit (Option Dict) :=
  if truthy (Dict.getd item k) then
    match Dict.getd item k with
    | .obj fs =>
      if truthy (Dict.getd fs "ids") then
        match Dict.getd fs "ids" with
        | .obj ids => .ok (some ids)
        | _ => .error ()
      else .ok none
    | _ => .error ()
  else .ok none

/-- The history-variant cascade (lines 55-62): `episode`, then `movie`,
then `show`, then `season`, first sub-record with truthy `ids` wins. -/
def firstSubIds (item : Dict) : Except Unit (Option Dict) :=
  match subIds item "episode" with
  | .error e => .error e
  | .ok (some ids) => .ok (some ids)
  | .ok none =>
    match subIds item "movie" with
    | .error e => .error e
    | .ok (some ids) => .ok (some ids)
    | .ok none =>
      match subIds item "show" with
      | .error e => .error e
      | .ok (some ids) => .ok (some ids)
      | .ok none => subIds item "season"

/-- The `elif "show" in item and item["show"].get("ids"):` branch
(lines 73-76), reached when neither the history branch nor the movie
branch applies.  Returns the `(extract_id result, item_type, watched_at)`
triple of local variables; when no branch fires, all three stay `None`. -/
def showBranch (item : Dict) : Except Unit (Option (String × JVal) × JVal × JVal) :=
  if Dict.hasKey item "show" then
    match Dict.getd item "show" with
    | .obj fs =>
      if truthy (Dict.getd fs "ids") then
        match Dict.getd fs "ids" with
        | .obj ids => .ok (extract_id ids, .str "show", Dict.getd item "last_watched_at")
        | _ => .error ()
      else .ok (none, .null, .null)
    | _ => .error ()
  else .ok (none, .null, .null)

/-- The per-item branch cascade of `convert_export_to_import`
(lines 48-76): computes the `(id_key, id_value)` pair (as an `Option`),
the `item_type` and the `watched_at` local variables. -/
def resolve (item : Dict) : Except Unit (Option (String × JVal) × JVal × JVal) :=
  if Dict.hasKey item "type" then
    match firstSubIds item with
    | .error e => .error e
    | .ok none => .ok (none, Dict.getd item "type", Dict.getd item "watched_at")
    | .ok (some ids) =>
      .ok (extract_id ids, Dict.getd item "type", Dict.getd item "watched_at")
  else if Dict.hasKey item "movie" then
    match Dict.getd item "movie" with
    | .obj fs =>
      if truthy (Dict.getd fs "ids") then
        match Dict.getd fs "ids" with
        | .obj ids => .ok (extract_id ids, .str "movie", Dict.getd item "last_watched_at")
        | _ => .error ()
      else showBranch item
    | _ => .error ()
  else showBranch item

/-- Entry assembly (lines 84-100): the identifier field and `type`,
then `watched_at` if truthy, `watchlisted_at` if the key is present,
`rating` if present and truthy, and `rated_at` if `rating` was added and
the key is present. -/
def build_entry (item : Dict) (idk : String) (idv : JVal) (ty w : JVal) : Dict :=
  let e : Dict := [(idk, idv), ("type", ty)]
  let e := if truthy w then e ++ [("watched_at", w)] else e
  let e := if Dict.hasKey item "watchlisted_at" then
             e ++ [("watchlisted_at", Dict.getd item "watchlisted_at")]
           else e
  if Dict.hasKey item "rating" && truthy (Dict.getd item "rating") then
    let e := e ++ [("rating", Dict.getd item "rating")]
    if Dict.hasKey item "rated_at" then e ++ [("rated_at", Dict.getd item "rated_at")]
    else e
  else e

/-- One iteration of the conversion loop (lines 47-102): `.ok none` is a
skip (`continue` after `skipped_count += 1`), `.ok (some e)` appends the
entry `e`, `.error ()` is a Python exception escaping the loop. -/
def convert_item (item : Dict) : Except Unit (Option Dict) :=
  match resolve item with
  | .error e => .error e
  | .ok (none, _, _) => .ok none
  | .ok (some (k, v), ty, w) =>
    if k == "" || !truthy v then .ok none
    else .ok (some (build_entry item k v ty w))

/-- Function `convert_export_to_import` (lines 39-107): fold over the input,
returning the emitted records in order together with the skip count. -/
def convert_export_to_import : List Dict → Except Unit (List Dict × Nat)
  | [] => .ok ([], 0)
  | item :: rest =>
    match convert_item item with
    | .error e => .error e
    | .ok r =>
      match convert_export_to_import rest with
      | .error e => .error e
      | .ok (recs, sk) =>
        match r with
        | none => .ok (recs, sk + 1)
        | some e => .ok (e :: recs, sk)

/-- Function `detect_file_type` (lines 110-124): classify by the first
element. -/
def detect_file_type : List Dict → String
  | [] => "unknown"
  | first :: _ =>
    if Dict.hasKey first "action" || Dict.hasKey first "type" then "history"
    else if Dict.hasKey first "movie" then "watched-movies"
    else if Dict.hasKey first "show" then "watched-shows"
    else "unknown"

/-- The fixed provider priority order stated by the spec. -/
def providers : List String := ["imdb", "tmdb", "tvdb", "trakt"]

/-- Modelled from the spec's words (section 4.1): return the pair
`(<provider>_id, value)` for the first provider in the fixed priority
order whose value is truthy, and absence otherwise. -/
def extract_id_spec (ids : Dict) : Option (String × JVal) :=
  match providers.find? (fun p => truthy (Dict.getd ids p)) with
  | some p => some (p ++ "_id", Dict.getd ids p)
  | none => none

/-- C1: for every identifier set, `extract_id` returns the pair for the
first provider in priority order imdb, tmdb, tvdb, trakt whose value is
truthy, and the absent pair when no provider has a truthy value; it is a
total function with no error outcome. -/
theorem extract_id_follows_priority_order (ids : Dict) :
    extract_id ids = extract_id_spec ids := by
  unfold extract_id extract_id_spec providers
  simp only [List.find?]
  cases h1 : truthy (Dict.getd ids "imdb") <;>
    cases h2 : truthy (Dict.getd ids "tmdb") <;>
      cases h3 : truthy (Dict.getd ids "tvdb") <;>
        cases h4 : truthy (Dict.getd ids "trakt") <;>
          simp [h1, h2, h3, h4]

/-- The nested sub-record keys inspected by the history branch, in the
fixed order the spec states. -/
def historyOrder : List String := ["episode", "movie", "show", "season"]

/-- Modelled from the spec's words (section 4.3, step 1): take the
identifier set of the first sub-record, in the fixed order, that is
present with a non-empty `ids` mapping. -/
def firstSubIds_spec : List String → Dict → Except Unit (Option Dict)
  | [], _ => .ok none
  | k :: ks, item =>
    match subIds item k with
    | .error e => .error e
    | .ok (some ids) => .ok (some ids)
    | .ok none => firstSubIds_spec ks item

/-- The four identifier field names an output record may carry. -/
def idFields : List String := ["imdb_id", "tmdb_id", "tvdb_id", "trakt_id"]

/-- How many identifier fields a record carries. -/
def countIdFields (e : Dict) : Nat :=
  (e.map Prod.fst).countP (fun k => idFields.contains k)

theorem extract_id_some {ids : Dict} {k : String} {v : JVal}
    (h : extract_id ids = some (k, v)) :
    k ∈ idFields ∧ truthy v = true := by
  unfold extract_id at h
  split_ifs at h <;> simp_all [idFields]

theorem get?_append (a b : Dict) (k : String) :
    Dict.get? (a ++ b) k = ((Dict.get? a k).or (Dict.get? b k)) := by
  induction a with
  | nil => simp [Dict.get?]
  | cons p rest ih =>
    obtain ⟨k', v⟩ := p
    by_cases h : k' = k <;> simp [Dict.get?, h, ih]

theorem hasKey_append (a b : Dict) (k : String) :
    Dict.hasKey (a ++ b) k = (Dict.hasKey a k || Dict.hasKey b k) := by
  simp only [Dict.hasKey, get?_append]
  cases Dict.get? a k <;> simp [Option.or]

theorem build_entry_get? (item : Dict) (idk : String) (idv ty w : JVal)
    (h1 : idk ≠ "type") (h2 : idk ≠ "watched_at") (h3 : idk ≠ "watchlisted_at")
    (h4 : idk ≠ "rating") (h5 : idk ≠ "rated_at") :
    Dict.get? (build_entry item idk idv ty w) idk = some idv
    ∧ Dict.get? (build_entry item idk idv ty w) "type" = some ty
    ∧ Dict.get? (build_entry item idk idv ty w) "watched_at" =
        (if truthy w then some w else none)
    ∧ Dict.get? (build_entry item idk idv ty w) "watchlisted_at" =
        (if Dict.hasKey item "watchlisted_at" then some (Dict.getd item "watchlisted_at")
         else none)
    ∧ Dict.get? (build_entry item idk idv ty w) "rating" =
        (if Dict.hasKey item "rating" && truthy (Dict.getd item "rating") then
           some (Dict.getd item "rating")
         else none)
    ∧ Dict.get? (build_entry item idk idv ty w) "rated_at" =
        (if (Dict.hasKey item "rating" && truthy (Dict.getd item "rating"))
            && Dict.hasKey item "rated_at" then
           some (Dict.getd item "rated_at")
         else none) := by
  unfold build_entry
  split_ifs <;> simp_all [Dict.get?, get?_append]

theorem build_entry_count (item : Dict) (idk : String) (idv ty w : JVal)
    (hk : idk ∈ idFields) :
    countIdFields (build_entry item idk idv ty w) = 1 := by
  simp only [idFields, List.mem_cons, List.not_mem_nil, or_false] at hk
  rcases hk with rfl | rfl | rfl | rfl <;>
    (unfold build_entry
     split_ifs <;>
       simp [countIdFields, idFields, List.countP_append, List.countP_cons])

theorem resolve_some {item : Dict} {k : String} {v ty w : JVal}
    (h : resolve item = .ok (some (k, v), ty, w)) :
    (∃ ids, extract_id ids = some (k, v))
    ∧ w = (if Dict.hasKey item "type" then Dict.getd item "watched_at"
           else Dict.getd item "last_watched_at")
    ∧ (Dict.hasKey item "type" = true → ty = Dict.getd item "type")
    ∧ (Dict.hasKey item "type" = false →
         ty = .str "movie" ∨ ty = .str "show") := by
  unfold resolve showBranch at h
  repeat' split at h
  all_goals simp at h
  all_goals
    obtain ⟨h1, h2, h3⟩ := h
    subst h2
    subst h3
    refine ⟨⟨_, h1⟩, ?_, ?_, ?_⟩ <;> simp_all

theorem convert_item_some {item : Dict} {e : Dict}
    (h : convert_item item = .ok (some e)) :
    ∃ k v ty w, resolve item = .ok (some (k, v), ty, w)
      ∧ k ∈ idFields ∧ truthy v = true
      ∧ e = build_entry item k v ty w := by
  unfold convert_item at h
  split at h
  · exact absurd h (by simp)
  · exact absurd h (by simp)
  · rename_i k v ty w hres
    split_ifs at h with hcond
    · exact absurd h (by simp)
    · obtain ⟨⟨ids, hex⟩, -, -, -⟩ := resolve_some hres
      obtain ⟨hmem, htr⟩ := extract_id_some hex
      simp only [Except.ok.injEq, Option.some.injEq] at h
      exact ⟨k, v, ty, w, hres, hmem, htr, h.symm⟩

theorem idFields_ne {k : String} (hk : k ∈ idFields) :
    k ≠ "type" ∧ k ≠ "watched_at" ∧ k ≠ "watchlisted_at"
      ∧ k ≠ "rating" ∧ k ≠ "rated_at" := by
  simp only [idFields, List.mem_cons, List.not_mem_nil, or_false] at hk
  rcases hk with rfl | rfl | rfl | rfl <;>
    exact ⟨by decide, by decide, by decide, by decide, by decide⟩

/-- C7: the shape detector returns "unknown" on the empty sequence and
otherwise classifies by the first element alone: "history" when it has an
`action` or `type` key, else "watched-movies" on a `movie` key, else
"watched-shows" on a `show` key, else "unknown"; two non-empty sequences
with equal first elements classify equally. -/
theorem detect_file_type_first_element :
    detect_file_type [] = "unknown"
    ∧ (∀ (x : Dict) (xs : List Dict),
        detect_file_type (x :: xs) =
          if Dict.hasKey x "action" || Dict.hasKey x "type" then "history"
          else if Dict.hasKey x "movie" then "watched-movies"
          else if Dict.hasKey x "show" then "watched-shows"
          else "unknown")
    ∧ (∀ (x : Dict) (xs ys : List Dict),
        detect_file_type (x :: xs) = detect_file_type (x :: ys)) :=
  ⟨rfl, fun _ _ => rfl, fun _ _ _ => rfl⟩

/-- C9: the identifier value stored in every emitted record is truthy:
the record holds some identifier field whose stored value is truthy. -/
theorem emitted_id_value_truthy (item e : Dict)
    (h : convert_item item = .ok (some e)) :
    ∃ k v, k ∈ idFields ∧ Dict.get? e k = some v ∧ truthy v = true := by
  obtain ⟨k, v, ty, w, -, hmem, htr, he⟩ := convert_item_some h
  obtain ⟨n1, n2, n3, n4, n5⟩ := idFields_ne hmem
  refine ⟨k, v, hmem, ?_, htr⟩
  rw [he]
  exact (build_entry_get? item k v ty w n1 n2 n3 n4 n5).1

/-- An item with an `action` key but no `type` key, as produced by some
history exports. -/
def actionItem : Dict :=
  [("action", .str "watch"),
   ("movie", .obj [("ids", .obj [("imdb", .str "tt1")])]),
   ("last_watched_at", .str "2020-02-02T00:00:00Z")]

/-- C10: the shape detector classifies an `action`-keyed first element as
"history", yet the normalizer, which branches on `type` only, processes
such an item under the watched-movies rules: `type` is forced to "movie"
and the timestamp is read from `last_watched_at`. -/
theorem detector_normalizer_disagree :
    detect_file_type [actionItem] = "history"
    ∧ convert_export_to_import [actionItem] =
        .ok ([[("imdb_id", .str "tt1"), ("type", .str "movie"),
               ("watched_at", .str "2020-02-02T00:00:00Z")]], 0) :=
  ⟨rfl, rfl⟩

/-- An item whose `show` sub-record has an empty identifier set; the
converter skips it. -/
def emptyShowItem : Dict := [("show", .obj [("ids", .obj [])])]

/-- The record the converter emits for `actionItem`. -/
def actionRec : Dict :=
  [("imdb_id", .str "tt1"), ("type", .str "movie"),
   ("watched_at", .str "2020-02-02T00:00:00Z")]

/-- C5: each processed item either contributes exactly one record or
bumps the skip count by exactly one, never both and never neither; hence
the number of records plus the skip count equals the input length. -/
theorem convert_emits_or_skips :
    (∀ (item : Dict) (rest recs : List Dict) (n : Nat),
        convert_export_to_import (item :: rest) = .ok (recs, n) →
        ∃ recs' n', convert_export_to_import rest = .ok (recs', n')
          ∧ ((∃ e, convert_item item = .ok (some e) ∧ recs = e :: recs' ∧ n = n')
             ∨ (convert_item item = .ok none ∧ recs = recs' ∧ n = n' + 1)))
    ∧ (∀ (data recs : List Dict) (n : Nat),
        convert_export_to_import data = .ok (recs, n) →
        recs.length + n = data.length) := by
  have step : ∀ (item : Dict) (rest recs : List Dict) (n : Nat),
      convert_export_to_import (item :: rest) = .ok (recs, n) →
      ∃ recs' n', convert_export_to_import rest = .ok (recs', n')
        ∧ ((∃ e, convert_item item = .ok (some e) ∧ recs = e :: recs' ∧ n = n')
           ∨ (convert_item item = .ok none ∧ recs = recs' ∧ n = n' + 1)) := by
    intro item rest recs n h
    unfold convert_export_to_import at h
    cases hci : convert_item item with
    | error e => simp [hci] at h
    | ok r =>
      cases hcr : convert_export_to_import rest with
      | error e => simp [hci, hcr] at h
      | ok p =>
        obtain ⟨recs', sk⟩ := p
        cases r with
        | none =>
          simp [hci, hcr] at h
          exact ⟨recs', sk, rfl, .inr ⟨rfl, h.1.symm, h.2.symm⟩⟩
        | some e =>
          simp [hci, hcr] at h
          exact ⟨recs', sk, rfl, .inl ⟨e, rfl, h.1.symm, h.2.symm⟩⟩
  refine ⟨step, ?_⟩
  intro data
  induction data with
  | nil =>
    intro recs n h
    simp [convert_export_to_import] at h
    simp [← h.1, ← h.2]
  | cons item rest ih =>
    intro recs n h
    obtain ⟨recs', n', hrest, hcase⟩ := step item rest recs n h
    have hlen := ih recs' n' hrest
    rcases hcase with ⟨e, -, rfl, rfl⟩ | ⟨-, rfl, rfl⟩ <;> simp <;> omega

/-- C8: the normalizer is a per-item fold: converting a concatenation
concatenates the record lists and adds the skip counts, so output order
is input order minus skipped elements. -/
theorem convert_append (xs ys r1 r2 : List Dict) (s1 s2 : Nat)
    (h1 : convert_export_to_import xs = .ok (r1, s1))
    (h2 : convert_export_to_import ys = .ok (r2, s2)) :
    convert_export_to_import (xs ++ ys) = .ok (r1 ++ r2, s1 + s2) := by
  induction xs generalizing r1 s1 with
  | nil =>
    simp [convert_export_to_import] at h1
    obtain ⟨rfl, rfl⟩ := h1
    simpa using h2
  | cons x rest ih =>
    unfold convert_export_to_import at h1
    cases hci : convert_item x with
    | error e => simp [hci] at h1
    | ok r =>
      cases hcr : convert_export_to_import rest with
      | error e => simp [hci, hcr] at h1
      | ok p =>
        obtain ⟨recs, sk⟩ := p
        have hmid := ih recs sk hcr
        show convert_export_to_import (x :: (rest ++ ys)) = _
        unfold convert_export_to_import
        rw [hci, hmid]
        cases r with
        | none =>
          simp [hci, hcr] at h1
          obtain ⟨rfl, rfl⟩ := h1
          simp
          omega
        | some e =>
          simp [hci, hcr] at h1
          obtain ⟨rfl, rfl⟩ := h1
          simp

theorem hasKey_def (d : Dict) (k : String) :
    Dict.hasKey d k = (Dict.get? d k).isSome := rfl

theorem getd_def (d : Dict) (k : String) :
    Dict.getd d k = (Dict.get? d k).getD .null := rfl

theorem idFields_ne_empty {k : String} (hk : k ∈ idFields) :
    (k == "") = false := by
  simp only [idFields, List.mem_cons, List.not_mem_nil, or_false] at hk
  rcases hk with rfl | rfl | rfl | rfl <;> decide

theorem getd_obj_hasKey {item : Dict} {k : String} {fs : Dict}
    (h : Dict.getd item k = .obj fs) : Dict.hasKey item k = true := by
  unfold Dict.getd at h
  unfold Dict.hasKey
  cases hg : Dict.get? item k with
  | none => rw [hg] at h; exact absurd h (by simp [Option.getD])
  | some v => rfl

/-- A history item whose own `type` field is JSON null. -/
def nullTypeItem : Dict :=
  [("type", .null), ("movie", .obj [("ids", .obj [("imdb", .str "tt1")])])]

/-- C2 counterexample: a history-variant item whose `type` field is null
is still converted, and the emitted record's `type` value is null, i.e.
empty rather than non-empty. -/
theorem record_type_null_counterexample :
    convert_export_to_import [nullTypeItem] =
      .ok ([[("imdb_id", .str "tt1"), ("type", .null)]], 0)
    ∧ truthy (Dict.getd [("imdb_id", JVal.str "tt1"), ("type", JVal.null)] "type")
        = false :=
  ⟨rfl, rfl⟩

/-- C2 amended: every emitted record carries exactly one identifier field
and a present `type` key; for non-history items the `type` value is the
non-empty literal "movie" or "show", while for history items it is copied
verbatim from the item's own `type` field and may be empty or null. -/
theorem record_one_id_and_type (item e : Dict)
    (h : convert_item item = .ok (some e)) :
    countIdFields e = 1
    ∧ Dict.hasKey e "type" = true
    ∧ (Dict.hasKey item "type" = true →
        Dict.getd e "type" = Dict.getd item "type")
    ∧ (Dict.hasKey item "type" = false →
        Dict.getd e "type" = .str "movie" ∨ Dict.getd e "type" = .str "show") := by
  obtain ⟨k, v, ty, w, hres, hmem, htr, he⟩ := convert_item_some h
  obtain ⟨-, -, hty1, hty2⟩ := resolve_some hres
  obtain ⟨n1, n2, n3, n4, n5⟩ := idFields_ne hmem
  obtain ⟨-, g2, -, -, -, -⟩ := build_entry_get? item k v ty w n1 n2 n3 n4 n5
  subst he
  refine ⟨build_entry_count item k v ty w hmem, ?_, ?_, ?_⟩
  · simp [Dict.hasKey, g2]
  · intro hht
    have hv := hty1 hht
    simp only [Dict.getd, g2, Option.getD_some]
    simpa [Dict.getd] using hv
  · intro hht
    have hv := hty2 hht
    simp only [Dict.getd, g2, Option.getD_some]
    exact hv

/-- C2 amended, instantiated at the null-`type` history item. -/
theorem record_one_id_and_type_witness :
    countIdFields [("imdb_id", JVal.str "tt1"), ("type", JVal.null)] = 1
    ∧ Dict.hasKey [("imdb_id", JVal.str "tt1"), ("type", JVal.null)] "type" = true
    ∧ (Dict.hasKey nullTypeItem "type" = true →
        Dict.getd [("imdb_id", JVal.str "tt1"), ("type", JVal.null)] "type"
          = Dict.getd nullTypeItem "type")
    ∧ (Dict.hasKey nullTypeItem "type" = false →
        Dict.getd [("imdb_id", JVal.str "tt1"), ("type", JVal.null)] "type"
            = .str "movie"
          ∨ Dict.getd [("imdb_id", JVal.str "tt1"), ("type", JVal.null)] "type"
            = .str "show") :=
  record_one_id_and_type nullTypeItem _ rfl

/-- A history item whose episode identifier set is non-empty but holds no
usable provider, while its movie sub-record has a usable `imdb` id. -/
def slugEpisodeItem : Dict :=
  [("type", .str "episode"),
   ("episode", .obj [("ids", .obj [("slug", .str "x")])]),
   ("movie", .obj [("ids", .obj [("imdb", .str "tt9")])]),
   ("watched_at", .str "2021-01-01T00:00:00Z")]

/-- C3: for history-variant items the sub-records are inspected in the
fixed order episode, movie, show, season; the first present one with a
truthy `ids` mapping is the only one consulted (a later usable sub-record
cannot rescue a chosen set with no usable identifier); the output `type`
is the item's own `type` field and the timestamp source is `watched_at`;
when every sub-record is absent or empty the item is skipped. -/
theorem history_branch_fixed_order (item : Dict)
    (h : Dict.hasKey item "type" = true) :
    firstSubIds item = firstSubIds_spec historyOrder item
    ∧ (firstSubIds item = .ok none → convert_item item = .ok none)
    ∧ (∀ ids, firstSubIds item = .ok (some ids) → extract_id ids = none →
        convert_item item = .ok none)
    ∧ (∀ ids k v, firstSubIds item = .ok (some ids) →
        extract_id ids = some (k, v) →
        convert_item item =
          .ok (some (build_entry item k v (Dict.getd item "type")
                      (Dict.getd item "watched_at")))) := by
  refine ⟨?_, ?_, ?_, ?_⟩
  · simp only [firstSubIds, firstSubIds_spec, historyOrder]
    cases subIds item "episode" with
    | error e => rfl
    | ok o =>
      cases o with
      | some ids => rfl
      | none =>
        cases subIds item "movie" with
        | error e => rfl
        | ok o2 =>
          cases o2 with
          | some ids => rfl
          | none =>
            cases subIds item "show" with
            | error e => rfl
            | ok o3 =>
              cases o3 with
              | some ids => rfl
              | none =>
                cases subIds item "season" with
                | error e => rfl
                | ok o4 => cases o4 <;> rfl
  · intro hfs
    unfold convert_item resolve
    simp [h, hfs]
  · intro ids hfs hex
    unfold convert_item resolve
    simp [h, hfs, hex]
  · intro ids k v hfs hex
    obtain ⟨hmem, htv⟩ := extract_id_some hex
    unfold convert_item resolve
    simp [h, hfs, hex, htv, idFields_ne_empty hmem]

/-- C3 instantiated: the chosen episode identifier set has no usable
provider, so the item is skipped even though its movie sub-record holds a
usable `imdb` id. -/
theorem history_branch_fixed_order_witness :
    convert_item slugEpisodeItem = .ok none :=
  (history_branch_fixed_order slugEpisodeItem rfl).2.2.1
    [("slug", JVal.str "x")] rfl rfl

/-- An item whose `watchlisted_at` is null (present but falsy), whose
`rating` is 0 (present but falsy) and whose `rated_at` is present. -/
def gatingItem : Dict :=
  [("type", .str "movie"),
   ("movie", .obj [("ids", .obj [("tmdb", .num 5)])]),
   ("watchlisted_at", .null),
   ("rating", .num 0),
   ("rated_at", .str "2021-02-02T00:00:00Z")]

/-- The record the converter emits for `gatingItem`. -/
def gatingRec : Dict :=
  [("tmdb_id", .num 5), ("type", .str "movie"), ("watchlisted_at", .null)]

/-- C4: in every emitted record, `watched_at` is present iff the resolved
timestamp source (`watched_at` for history items, `last_watched_at`
otherwise) is truthy; `watchlisted_at` is copied iff the key is present on
the item, null included; `rating` is copied iff present and truthy, so a
rating of 0 is dropped; `rated_at` is copied iff `rating` was copied and
the key is present. -/
theorem optional_field_gating (item e : Dict)
    (h : convert_item item = .ok (some e)) :
    Dict.hasKey e "watched_at" =
      truthy (if Dict.hasKey item "type" then Dict.getd item "watched_at"
              else Dict.getd item "last_watched_at")
    ∧ (Dict.hasKey e "watched_at" = true →
        Dict.getd e "watched_at" =
          (if Dict.hasKey item "type" then Dict.getd item "watched_at"
           else Dict.getd item "last_watched_at"))
    ∧ Dict.hasKey e "watchlisted_at" = Dict.hasKey item "watchlisted_at"
    ∧ Dict.getd e "watchlisted_at" = Dict.getd item "watchlisted_at"
    ∧ Dict.hasKey e "rating"
        = (Dict.hasKey item "rating" && truthy (Dict.getd item "rating"))
    ∧ (Dict.hasKey e "rating" = true →
        Dict.getd e "rating" = Dict.getd item "rating")
    ∧ Dict.hasKey e "rated_at"
        = (Dict.hasKey e "rating" && Dict.hasKey item "rated_at")
    ∧ (Dict.hasKey e "rated_at" = true →
        Dict.getd e "rated_at" = Dict.getd item "rated_at") := by
  obtain ⟨k, v, ty, w, hres, hmem, htr, he⟩ := convert_item_some h
  obtain ⟨-, hw, -, -⟩ := resolve_some hres
  obtain ⟨n1, n2, n3, n4, n5⟩ := idFields_ne hmem
  obtain ⟨-, -, g3, g4, g5, g6⟩ := build_entry_get? item k v ty w n1 n2 n3 n4 n5
  subst he
  rw [← hw]
  refine ⟨?_, ?_, ?_, ?_, ?_, ?_, ?_, ?_⟩ <;>
    simp only [hasKey_def, getd_def, g3, g4, g5, g6] <;>
      split_ifs <;> simp_all

/-- C4 instantiated at `gatingItem`: present-but-null `watchlisted_at` is
copied while the falsy rating, its `rated_at`, and the absent timestamp
are all dropped. -/
theorem optional_field_gating_witness :
    Dict.hasKey gatingRec "watchlisted_at" = true
    ∧ Dict.hasKey gatingRec "watched_at" = false
    ∧ Dict.hasKey gatingRec "rating" = false
    ∧ Dict.hasKey gatingRec "rated_at" = false :=
  ⟨((optional_field_gating gatingItem gatingRec rfl).2.2.1).trans rfl,
   ((optional_field_gating gatingItem gatingRec rfl).1).trans rfl,
   ((optional_field_gating gatingItem gatingRec rfl).2.2.2.2.1).trans rfl,
   ((optional_field_gating gatingItem gatingRec rfl).2.2.2.2.2.2.1).trans rfl⟩

/-- Scenario 2's input item: a watched-movies entry with a `tmdb` id. -/
def tmdbMovieItem : Dict :=
  [("movie", .obj [("ids", .obj [("tmdb", .num 789)])]),
   ("last_watched_at", .str "2019-05-05T00:00:00Z")]

/-- A watched-shows entry with a `tvdb` id and no `movie` key. -/
def tvdbShowItem : Dict :=
  [("show", .obj [("ids", .obj [("tvdb", .num 42)])]),
   ("last_watched_at", .str "2018-03-03T00:00:00Z")]

/-- C6: for items without a `type` key, a `movie` sub-record with a
non-empty identifier set is converted with the literal type "movie" and
timestamp source `last_watched_at`; otherwise a `show` sub-record with a
non-empty identifier set is converted the same way with type "show"; and
scenario 2 of the spec evaluates as stated. -/
theorem nonhistory_branch_rules :
    (∀ (item fs ids : Dict),
        Dict.hasKey item "type" = false →
        Dict.getd item "movie" = .obj fs →
        Dict.getd fs "ids" = .obj ids →
        truthy (.obj ids) = true →
        convert_item item =
          .ok (match extract_id ids with
               | none => none
               | some (k, v) =>
                 some (build_entry item k v (.str "movie")
                        (Dict.getd item "last_watched_at"))))
    ∧ (∀ (item fs ids : Dict),
        Dict.hasKey item "type" = false →
        (Dict.hasKey item "movie" = false
          ∨ ∃ fs', Dict.getd item "movie" = .obj fs'
              ∧ truthy (Dict.getd fs' "ids") = false) →
        Dict.getd item "show" = .obj fs →
        Dict.getd fs "ids" = .obj ids →
        truthy (.obj ids) = true →
        convert_item item =
          .ok (match extract_id ids with
               | none => none
               | some (k, v) =>
                 some (build_entry item k v (.str "show")
                        (Dict.getd item "last_watched_at"))))
    ∧ convert_export_to_import [tmdbMovieItem] =
        .ok ([[("tmdb_id", .num 789), ("type", .str "movie"),
               ("watched_at", .str "2019-05-05T00:00:00Z")]], 0) := by
  refine ⟨?_, ?_, rfl⟩
  · intro item fs ids ht hm hi htr
    have hkm : Dict.hasKey item "movie" = true := getd_obj_hasKey hm
    unfold convert_item resolve
    cases hex : extract_id ids with
    | none => simp [ht, hkm, hm, hi, htr, hex]
    | some kv =>
      obtain ⟨k, v⟩ := kv
      obtain ⟨hmem, htv⟩ := extract_id_some hex
      simp [ht, hkm, hm, hi, htr, hex, htv, idFields_ne_empty hmem]
  · intro item fs ids ht hmv hs hi htr
    have hks : Dict.hasKey item "show" = true := getd_obj_hasKey hs
    unfold convert_item resolve showBranch
    rcases hmv with hmv | ⟨fs', hmv, hfalsy⟩
    · cases hex : extract_id ids with
      | none => simp [ht, hmv, hks, hs, hi, htr, hex]
      | some kv =>
        obtain ⟨k, v⟩ := kv
        obtain ⟨hmem, htv⟩ := extract_id_some hex
        simp [ht, hmv, hks, hs, hi, htr, hex, htv, idFields_ne_empty hmem]
    · cases hex : extract_id ids with
      | none => simp [ht, hmv, hks, hs, hi, htr, hex, hfalsy]
      | some kv =>
        obtain ⟨k, v⟩ := kv
        obtain ⟨hmem, htv⟩ := extract_id_some hex
        simp [ht, hmv, hks, hs, hi, htr, hex, htv, hfalsy,
          idFields_ne_empty hmem]

/-- C6 instantiated: a watched-movies item and a watched-shows item are
converted with literal types "movie" and "show". -/
theorem nonhistory_branch_rules_witness :
    convert_item tmdbMovieItem =
      .ok (some [("tmdb_id", JVal.num 789), ("type", JVal.str "movie"),
                 ("watched_at", JVal.str "2019-05-05T00:00:00Z")])
    ∧ convert_item tvdbShowItem =
      .ok (some [("tvdb_id", JVal.num 42), ("type", JVal.str "show"),
                 ("watched_at", JVal.str "2018-03-03T00:00:00Z")]) :=
  ⟨(nonhistory_branch_rules.1 tmdbMovieItem
      [("ids", .obj [("tmdb", .num 789)])] [("tmdb", .num 789)]
      rfl rfl rfl rfl).trans rfl,
   (nonhistory_branch_rules.2.1 tvdbShowItem
      [("ids", .obj [("tvdb", .num 42)])] [("tvdb", .num 42)]
      rfl (.inl rfl) rfl rfl rfl).trans rfl⟩

/-- C5 instantiated: one emitted record plus one skip accounts for a
two-item input. -/
theorem convert_emits_or_skips_witness :
    ([actionRec] : List Dict).length + 1
      = ([actionItem, emptyShowItem] : List Dict).length :=
  convert_emits_or_skips.2 [actionItem, emptyShowItem] [actionRec] 1 rfl

/-- C8 instantiated on a one-record list and a one-skip list. -/
theorem convert_append_witness :
    convert_export_to_import ([actionItem] ++ [emptyShowItem]) =
      .ok ([actionRec] ++ [], 0 + 1) :=
  convert_append [actionItem] [emptyShowItem] [actionRec] [] 0 1 rfl rfl

/-- C9 instantiated at `actionItem`. -/
theorem emitted_id_value_truthy_witness :
    ∃ k v, k ∈ idFields ∧ Dict.get? actionRec k = some v
      ∧ truthy v = true :=
  emitted_id_value_truthy actionItem actionRec rfl

end Trakt
